import Mathlib

/-!
Shallow embedding of `src/migrate_framer.py`, a tool that downloads
CDN-hosted assets referenced by static HTML files and rewrites the
references to document-relative local paths.  Strings are modelled as
`List Char`, byte sequences as `List Nat` (each element `< 256`), and
filesystem paths as lists of components.
-/

set_option maxRecDepth 100000

abbrev Str := List Char

/-- 2^32, the word modulus for the MD5 model. -/
def pow2_32 : Nat := 4294967296

/-- Reduce to a 32-bit word. -/
def w32 (n : Nat) : Nat := n % pow2_32

/-- Bitwise complement of a 32-bit word. -/
def wnot (x : Nat) : Nat := 4294967295 - x

/-- Left-rotation of a 32-bit word by `s` (for `0 < s < 32`). -/
def rotl (x s : Nat) : Nat := (x * 2 ^ s) % pow2_32 + x / 2 ^ (32 - s)

/-- The 64 MD5 round constants `floor(abs(sin(i+1)) * 2^32)`. -/
def md5K : List Nat := [3614090360, 3905402710, 606105819, 3250441966,
  4118548399, 1200080426, 2821735955, 4249261313, 1770035416, 2336552879,
  4294925233, 2304563134, 1804603682, 4254626195, 2792965006, 1236535329,
  4129170786, 3225465664, 643717713, 3921069994, 3593408605, 38016083,
  3634488961, 3889429448, 568446438, 3275163606, 4107603335, 1163531501,
  2850285829, 4243563512, 1735328473, 2368359562, 4294588738, 2272392833,
  1839030562, 4259657740, 2763975236, 1272893353, 4139469664, 3200236656,
  681279174, 3936430074, 3572445317, 76029189, 3654602809, 3873151461,
  530742520, 3299628645, 4096336452, 1126891415, 2878612391, 4237533241,
  1700485571, 2399980690, 4293915773, 2240044497, 1873313359, 4264355552,
  2734768916, 1309151649, 4149444226, 3174756917, 718787259, 3951481745]

/-- The 64 MD5 per-round left-rotation amounts. -/
def md5S : List Nat := [7, 12, 17, 22, 7, 12, 17, 22, 7, 12, 17, 22, 7, 12,
  17, 22, 5, 9, 14, 20, 5, 9, 14, 20, 5, 9, 14, 20, 5, 9, 14, 20, 4, 11,
  16, 23, 4, 11, 16, 23, 4, 11, 16, 23, 4, 11, 16, 23, 6, 10, 15, 21, 6,
  10, 15, 21, 6, 10, 15, 21, 6, 10, 15, 21]

/-- The MD5 nonlinear round function for round `i`. -/
def md5F (i b c d : Nat) : Nat :=
  if i < 16 then Nat.lor (Nat.land b c) (Nat.land (wnot b) d)
  else if i < 32 then Nat.lor (Nat.land d b) (Nat.land (wnot d) c)
  else if i < 48 then Nat.xor b (Nat.xor c d)
  else Nat.xor c (Nat.lor b (wnot d))

/-- The MD5 message-word index for round `i`. -/
def md5G (i : Nat) : Nat :=
  if i < 16 then i
  else if i < 32 then (5 * i + 1) % 16
  else if i < 48 then (3 * i + 5) % 16
  else (7 * i) % 16

/-- The four 32-bit words of MD5 state. -/
structure MD5State where
  a : Nat
  b : Nat
  c : Nat
  d : Nat

/-- One MD5 round on message block `M` (16 words). -/
def md5Step (M : List Nat) (st : MD5State) (i : Nat) : MD5State :=
  let f := md5F i st.b st.c st.d
  let tmp := w32 (st.a + f + md5K.getD i 0 + M.getD (md5G i) 0)
  let nb := w32 (st.b + rotl tmp (md5S.getD i 0))
  ⟨st.d, nb, st.b, st.c⟩

/-- Process one 16-word block. -/
def md5Block (st : MD5State) (M : List Nat) : MD5State :=
  let r := (List.range 64).foldl (md5Step M) st
  ⟨w32 (st.a + r.a), w32 (st.b + r.b), w32 (st.c + r.c), w32 (st.d + r.d)⟩

/-- `count` little-endian bytes of `n`. -/
def leBytes (n : Nat) : Nat → List Nat
  | 0 => []
  | k + 1 => n % 256 :: leBytes (n / 256) k

/-- MD5 padding: `0x80`, zeros to 56 mod 64, then the 64-bit LE bit length. -/
def md5Pad (msg : List Nat) : List Nat :=
  msg ++ [128] ++ List.replicate ((119 - msg.length % 64) % 64) 0 ++
    leBytes (8 * msg.length) 8

/-- Group bytes into 32-bit little-endian words. -/
def bytesToWords : List Nat → List Nat
  | b0 :: b1 :: b2 :: b3 :: rest =>
      (b0 + 256 * b1 + 65536 * b2 + 16777216 * b3) :: bytesToWords rest
  | _ => []

/-- Split a word list into chunks of 16 (fuel-indexed for structurality). -/
def chunks16Aux : Nat → List Nat → List (List Nat)
  | 0, _ => []
  | _, [] => []
  | fuel + 1, ws => ws.take 16 :: chunks16Aux fuel (ws.drop 16)

/-- Split a word list into chunks of 16. -/
def chunks16 (ws : List Nat) : List (List Nat) := chunks16Aux ws.length ws

/-- The MD5 initial state. -/
def md5Init : MD5State := ⟨1732584193, 4023233417, 2562383102, 271733878⟩

/-- MD5 over a byte sequence, as the final word state. -/
def md5Words (msg : List Nat) : MD5State :=
  (chunks16 (bytesToWords (md5Pad msg))).foldl md5Block md5Init

/-- The 16 digest bytes of MD5 (little-endian per word). -/
def md5Bytes (msg : List Nat) : List Nat :=
  let st := md5Words msg
  leBytes st.a 4 ++ leBytes st.b 4 ++ leBytes st.c 4 ++ leBytes st.d 4

/-- The 16 lowercase hex digits. -/
def hexChars : Str := ("0123456789abcdef").data

/-- Hex digit character for `n < 16` (default digit 0 out of range). -/
def hexDigitChar (n : Nat) : Char := hexChars.getD n (Char.ofNat 48)

/-- Two lowercase hex characters of a byte. -/
def byteHex (b : Nat) : Str := [hexDigitChar (b / 16 % 16), hexDigitChar (b % 16)]

/-- The 32-character lowercase hex digest of MD5, as `hashlib.md5(...).hexdigest()`. -/
def md5hex (msg : List Nat) : Str :=
  (md5Bytes msg).foldr (fun b acc => byteHex b ++ acc) []

/-- UTF-8 encoding of one character. -/
def utf8Char (c : Char) : List Nat :=
  let n := c.toNat
  if n < 128 then [n]
  else if n < 2048 then [192 + n / 64, 128 + n % 64]
  else if n < 65536 then [224 + n / 4096, 128 + n / 64 % 64, 128 + n % 64]
  else [240 + n / 262144, 128 + n / 4096 % 64, 128 + n / 64 % 64, 128 + n % 64]

/-- UTF-8 encoding of a string, as Python `s.encode('utf-8')`. -/
def utf8Encode (s : Str) : List Nat := s.foldr (fun c acc => utf8Char c ++ acc) []

/-- Line 43 of the source: `hashlib.md5(url.encode('utf-8')).hexdigest()[:12]`. -/
def url_hash (u : Str) : Str := (md5hex (utf8Encode u)).take 12

/-- Does `pat` occur at the head of `l`? -/
def headMatch : Str → Str → Bool
  | [], _ => true
  | _ :: _, [] => false
  | p :: ps, c :: cs => decide (p = c) && headMatch ps cs

/-- Python substring test `sub in l` (`True` for the empty `sub`). -/
def hasSubstr : Str → Str → Bool
  | [], sub => sub.isEmpty
  | c :: rest, sub => headMatch sub (c :: rest) || hasSubstr rest sub

/-- The suffix after the first "://", if any. -/
def afterSchemeSep : Str → Option Str
  | [] => none
  | ':' :: '/' :: '/' :: rest => some rest
  | _ :: rest => afterSchemeSep rest

/-- Does `c` terminate the path component of a URL? -/
def isPathEnd (c : Char) : Bool := decide (c = '?') || decide (c = '#')

/-- The path component of `urllib.parse.urlparse`, modelled for absolute
"scheme://authority/path" URLs (the authority runs to the first of `/`, `?`,
`#`; the path to the first of `?`, `#`); a string without "://" is taken
wholly as path, as `urlparse` does for scheme-less references. -/
def urlparse_path (u : Str) : Str :=
  match afterSchemeSep u with
  | some rest =>
      let afterAuth := rest.dropWhile (fun c => !(decide (c = '/') || isPathEnd c))
      match afterAuth with
      | '/' :: _ => afterAuth.takeWhile (fun c => !isPathEnd c)
      | _ => []
  | none => u.takeWhile (fun c => !isPathEnd c)

/-- POSIX `os.path.basename`: the part after the last `/`. -/
def basenameL (p : Str) : Str :=
  (p.reverse.takeWhile (fun c => decide (c ≠ '/'))).reverse

/-- The suffix of `l` from its last `.` (empty if no dot). -/
def lastDotSuffix (l : Str) : Str :=
  let tail := l.reverse.takeWhile (fun c => decide (c ≠ '.'))
  if tail.length = l.length then [] else '.' :: tail.reverse

/-- The extension of `os.path.splitext`: the suffix from the last dot of the
basename, unless only leading dots precede it. -/
def splitextExt (p : Str) : Str :=
  let base := basenameL p
  let lead := base.takeWhile (fun c => decide (c = '.'))
  lastDotSuffix (base.drop lead.length)

/-- Lines 21-26 of the source: extension of the URL path, lower-cased. -/
def get_extension (u : Str) : Str :=
  (splitextExt (urlparse_path u)).map Char.toLower

/-- Characters kept by the sanitizer `re.sub(r'[^a-zA-Z0-9._-]', '', name)`. -/
def isSafeChar (c : Char) : Bool :=
  (decide ('a' ≤ c) && decide (c ≤ 'z')) || (decide ('A' ≤ c) && decide (c ≤ 'Z')) ||
  (decide ('0' ≤ c) && decide (c ≤ '9')) || decide (c = '.') || decide (c = '_') ||
  decide (c = '-')

/-- Line 48 of the source: strip all characters outside `[a-zA-Z0-9._-]`. -/
def sanitizeName (s : Str) : Str := s.filter isSafeChar

/-- `assets` directory components. -/
def ASSETS_DIR : List Str := [("assets").data]

/-- `assets/images`. -/
def IMAGES_DIR : List Str := ASSETS_DIR ++ [("images").data]

/-- `assets/fonts`. -/
def FONTS_DIR : List Str := ASSETS_DIR ++ [("fonts").data]

/-- `assets/others`. -/
def OTHERS_DIR : List Str := ASSETS_DIR ++ [("others").data]

/-- Image extensions from line 29 of the source. -/
def imageExts : List Str := [(".png").data, (".jpg").data, (".jpeg").data,
  (".gif").data, (".webp").data, (".svg").data, (".ico").data]

/-- Font extensions from line 31 of the source. -/
def fontExts : List Str := [(".woff").data, (".woff2").data, (".ttf").data,
  (".otf").data, (".eot").data]

/-- Lines 28-34 of the source: classify an extension into a target directory. -/
def get_target_dir (ext : Str) : List Str :=
  if ext ∈ imageExts then IMAGES_DIR
  else if ext ∈ fontExts then FONTS_DIR
  else OTHERS_DIR

/-- Association-list lookup (models Python dict membership/indexing). -/
def lookupA {α β : Type} [DecidableEq α] : List (α × β) → α → Option β
  | [], _ => none
  | (k, v) :: rest, u => if k = u then some v else lookupA rest u

/-- The mutable run state: the `url_to_local_path` cache (successes only, as
in the source), the on-disk asset store (path to bytes), and a log of URL
fetch attempts (one entry per `urlopen` call, for counting fetches). -/
structure RunState where
  cache : List (Str × List Str)
  disk : List (List Str × List Nat)
  log : List Str
  deriving DecidableEq

/-- Does a file exist at `p`? -/
def diskHas (disk : List (List Str × List Nat)) (p : List Str) : Bool :=
  (lookupA disk p).isSome

/-- The exclusion marker checked on line 120 of the source. -/
def searchMarker : Str := ("searchIndex").data

/-- The literal CDN host part of the extraction regex. -/
def framerHost : Str := ("https://framerusercontent.com/").data

/-- Lines 41-58 of the source: the derived local storage path for a URL
(target directory from the lower-cased extension; filename from the
sanitized basename, falling back to the 12-hex hash plus extension when
empty or over 50 characters). -/
def targetPath (url : Str) : List Str :=
  let ext := get_extension url
  let original_name := sanitizeName (basenameL (urlparse_path url))
  let filename := if original_name.isEmpty || decide (50 < original_name.length)
    then url_hash url ++ ext else original_name
  get_target_dir ext ++ [filename]

/-- Lines 36-86 of the source, `download_file`: cache lookup, filename
derivation, existence check, fetch-and-write.  The network fetch and the
asset write are modelled by `oracle` (`none` = network or write failure, the
exception caught on line 84).  Note the failure branch leaves the cache
unchanged: the source never stores failures. -/
def download_file (oracle : Str → Option (List Nat)) (url : Str) (st : RunState) :
    Option (List Str) × RunState :=
  match lookupA st.cache url with
  | some p => (some p, st)
  | none =>
    if diskHas st.disk (targetPath url) then
      (some (targetPath url), { st with cache := (url, targetPath url) :: st.cache })
    else
      match oracle url with
      | some bytes =>
          (some (targetPath url),
            { cache := (url, targetPath url) :: st.cache,
              disk := (targetPath url, bytes) :: st.disk,
              log := st.log ++ [url] })
      | none => (none, { st with log := st.log ++ [url] })

/-- Is `c` one of the delimiters `["'\)\s]` of the extraction regex (ASCII
whitespace for `\s`)? -/
def urlDelim (c : Char) : Bool :=
  decide (c = Char.ofNat 34) || decide (c = Char.ofNat 39) || decide (c = ')') ||
  decide (c = ' ') || decide (c = Char.ofNat 9) || decide (c = Char.ofNat 10) ||
  decide (c = Char.ofNat 13) || decide (c = Char.ofNat 11) || decide (c = Char.ofNat 12)

/-- Left-to-right non-overlapping maximal matching of the regex
`https://framerusercontent\.com/[^"'\)\s]+`, fuel-indexed (the fuel is the
remaining text length; each step consumes at least one character). -/
def findallAux : Nat → Str → List Str
  | 0, _ => []
  | _ + 1, [] => []
  | fuel + 1, c :: rest =>
    if headMatch framerHost (c :: rest) then
      let body := ((c :: rest).drop framerHost.length).takeWhile (fun x => !urlDelim x)
      if body.isEmpty then findallAux fuel rest
      else (framerHost ++ body) ::
        findallAux fuel ((c :: rest).drop (framerHost.length + body.length))
    else findallAux fuel rest

/-- Line 105 of the source: `re.findall(framer_url_pattern, content)`. -/
def findall (content : Str) : List Str := findallAux content.length content

/-- Deduplication keeping first occurrences (a deterministic model of
`set(...)` iteration; match processing order among equal lengths is
unspecified in the source, the claims do not depend on it). -/
def dedupAux (seen : List Str) : List Str → List Str
  | [] => []
  | x :: xs => if x ∈ seen then dedupAux seen xs else x :: dedupAux (x :: seen) xs

/-- Deduplicate keeping first occurrences. -/
def dedupFirst (l : List Str) : List Str := dedupAux [] l

/-- Insert into a length-descending list, before the first entry of equal or
smaller length (stable insertion). -/
def insertLenDesc (x : Str) : List Str → List Str
  | [] => [x]
  | y :: ys => if y.length ≤ x.length then x :: y :: ys else y :: insertLenDesc x ys

/-- Line 111 of the source: `sorted(matches, key=len, reverse=True)`
(stable, length-descending). -/
def sortLenDesc : List Str → List Str
  | [] => []
  | x :: xs => insertLenDesc x (sortLenDesc xs)

/-- `html.unescape`, modelled for a subset of common character references
(`amp`, `lt`, `gt`, `quot`, `#39`); faithful on strings whose ampersands
occur only in these forms, the identity elsewhere. -/
def pyUnescape : Str → Str
  | [] => []
  | '&' :: 'a' :: 'm' :: 'p' :: ';' :: rest => '&' :: pyUnescape rest
  | '&' :: 'l' :: 't' :: ';' :: rest => '<' :: pyUnescape rest
  | '&' :: 'g' :: 't' :: ';' :: rest => '>' :: pyUnescape rest
  | '&' :: 'q' :: 'u' :: 'o' :: 't' :: ';' :: rest => Char.ofNat 34 :: pyUnescape rest
  | '&' :: '#' :: '3' :: '9' :: ';' :: rest => Char.ofNat 39 :: pyUnescape rest
  | c :: rest => c :: pyUnescape rest

/-- Python `str.replace(old, new)`: replace all non-overlapping occurrences
left to right (fuel-indexed; `old` is nonempty at every use site). -/
def pyReplaceAux (old new : Str) : Nat → Str → Str
  | 0, l => l
  | _ + 1, [] => []
  | fuel + 1, c :: rest =>
    if headMatch old (c :: rest) && !old.isEmpty then
      new ++ pyReplaceAux old new fuel ((c :: rest).drop old.length)
    else c :: pyReplaceAux old new fuel rest

/-- Python `l.replace(old, new)`. -/
def pyReplace (l old new : Str) : Str := pyReplaceAux old new l.length l

/-- Length of the common component prefix of two paths. -/
def commonLen : List Str → List Str → Nat
  | a :: as, b :: bs => if a = b then 1 + commonLen as bs else 0
  | _, _ => 0

/-- `os.path.relpath(asset, docDir)` on component lists (both relative to
the same root), followed by the source's `os.sep` to `/` normalization. -/
def relParts (docDir asset : List Str) : List Str :=
  let c := commonLen docDir asset
  List.replicate (docDir.length - c) (("..").data) ++ asset.drop c

/-- Join path components with forward slashes. -/
def joinSlash : List Str → Str
  | [] => []
  | [p] => p
  | p :: q :: rest => p ++ '/' :: joinSlash (q :: rest)

/-- One iteration of the loop on lines 115-144 of the source: unescape the
matched string, skip it if the exclusion marker occurs, otherwise download
and, on success, replace every occurrence of the unescaped string with the
document-relative asset path. -/
def stepUrl (oracle : Str → Option (List Nat)) (docDir : List Str)
    (acc : Str × RunState) (rawUrl : Str) : Str × RunState :=
  let url := pyUnescape rawUrl
  if hasSubstr url searchMarker then acc
  else
    match download_file oracle url acc.2 with
    | (some p, st') => (pyReplace acc.1 url (joinSlash (relParts docDir p)), st')
    | (none, st') => (acc.1, st')

/-- Lines 103-144 of the source: extract, deduplicate, sort longest-first,
and fold the per-URL rewrite step over the document text. -/
def rewriteContent (oracle : Str → Option (List Nat)) (docDir : List Str)
    (content : Str) (st : RunState) : Str × RunState :=
  (sortLenDesc (dedupFirst (findall content))).foldl (stepUrl oracle docDir) (content, st)

/-- An input document: its directory (components relative to the run root),
its text (`none` = not UTF-8 decodable, the `UnicodeDecodeError` branch on
line 93), and whether writing it back would succeed (the unguarded
`open(file_path, 'w')` on line 147). -/
structure DocFile where
  dir : List Str
  content : Option Str
  writeOk : Bool
  deriving DecidableEq

/-- Lines 88-151 of the source, `process_file`: skip undecodable documents,
rewrite the text, and write it back only when it changed.  A failing
write-back is an uncaught exception, modelled as `Except.error`. -/
def process_file (oracle : Str → Option (List Nat)) (d : DocFile) (st : RunState) :
    Except Unit (Option Str × RunState) :=
  match d.content with
  | none => Except.ok (none, st)
  | some content =>
    let r := rewriteContent oracle d.dir content st
    if r.1 = content then Except.ok (some content, r.2)
    else if d.writeOk then Except.ok (some r.1, r.2)
    else Except.error ()

/-- Lines 153-160 of the source, `main`: process each enumerated document in
order, threading the shared state; an uncaught exception aborts the run. -/
def runMain (oracle : Str → Option (List Nat)) :
    List DocFile → RunState → Except Unit (List (Option Str) × RunState)
  | [], st => Except.ok ([], st)
  | d :: ds, st =>
    match process_file oracle d st with
    | Except.error e => Except.error e
    | Except.ok r =>
      match runMain oracle ds r.2 with
      | Except.error e => Except.error e
      | Except.ok r2 => Except.ok (r.1 :: r2.1, r2.2)

/-- A fresh process state over a given on-disk asset store (the cache and
fetch log are process-local, the disk persists across runs). -/
def initState (disk : List (List Str × List Nat)) : RunState :=
  ⟨[], disk, []⟩

/-- The document list a second run sees: same files, contents as left by the
first run. -/
def nextDocs : List DocFile → List (Option Str) → List DocFile
  | d :: ds, c :: cs => { d with content := c } :: nextDocs ds cs
  | _, _ => []

/-- The filename rule in the spec's own words (section 4.3 step 4): take the
URL path basename, strip characters outside `[A-Za-z0-9._-]`; if empty or
longer than 50 characters use the 12-hex identifier followed by the
extension, otherwise the sanitized basename as-is.  A refinement target to
compare against the source computation. -/
def specFilename (url : Str) : Str :=
  let sanitized := sanitizeName (basenameL (urlparse_path url))
  if sanitized = [] ∨ 50 < sanitized.length then url_hash url ++ get_extension url
  else sanitized

/-- The path lies directly under one of the three asset directories. -/
def inAssetDirs (p : List Str) : Prop :=
  p.take 2 = IMAGES_DIR ∨ p.take 2 = FONTS_DIR ∨ p.take 2 = OTHERS_DIR

/-- Every cached path names an existing file inside the asset layout. -/
def CacheInv (st : RunState) : Prop :=
  ∀ u p, lookupA st.cache u = some p → diskHas st.disk p = true ∧ inAssetDirs p

/-- Decidable equality for `Except`, used to evaluate run results on
concrete inputs. -/
instance {ε α : Type} [DecidableEq ε] [DecidableEq α] : DecidableEq (Except ε α) :=
  fun a b =>
  match a, b with
  | Except.error x, Except.error y =>
    if h : x = y then Decidable.isTrue (h ▸ rfl)
    else Decidable.isFalse fun he => h (Except.error.inj he)
  | Except.ok x, Except.ok y =>
    if h : x = y then Decidable.isTrue (h ▸ rfl)
    else Decidable.isFalse fun he => h (Except.ok.inj he)
  | Except.error _, Except.ok _ => Decidable.isFalse fun he => Except.noConfusion he
  | Except.ok _, Except.error _ => Decidable.isFalse fun he => Except.noConfusion he

/-! Concrete inputs used by the per-claim theorems below. -/

/-- An oracle on which every fetch succeeds. -/
def c1all : Str → Option (List Nat) := fun _ => some [1]

/-- A matched string carrying an HTML entity (`&amp;`). -/
def c1raw : Str := ("https://framerusercontent.com/a&amp;b.png").data

/-- A document containing only the entity-escaped URL. -/
def c1doc : Str := ("p https://framerusercontent.com/a&amp;b.png q").data

/-- The asset path the unescaped URL materializes to. -/
def c1path : List Str := [("assets").data, ("images").data, ("ab.png").data]

/-- A plain (entity-free) URL for the C1 witness. -/
def c1wu : Str := ("https://framerusercontent.com/c.png").data

/-- A document containing `c1wu`. -/
def c1wdoc : Str := ("q https://framerusercontent.com/c.png r").data

/-- Asset path of `c1wu`. -/
def c1wp : List Str := [("assets").data, ("images").data, ("c.png").data]

/-- State after materializing `c1wu` from the empty state. -/
def c1wst : RunState := ⟨[(c1wu, c1wp)], [(c1wp, [1])], [c1wu]⟩

/-- An oracle on which every fetch fails. -/
def c2fail : Str → Option (List Nat) := fun _ => none

/-- A URL whose fetch fails. -/
def c2u : Str := ("https://framerusercontent.com/nf.png").data

/-- A document containing `c2u`. -/
def c2wdoc : Str := ("m https://framerusercontent.com/nf.png n").data

/-- URL whose fetch fails in the C3 run (longer, so processed first). -/
def c3u1 : Str := ("https://framerusercontent.com/d/x").data

/-- URL whose fetch succeeds; same basename as `c3u1`, so the same target. -/
def c3u2 : Str := ("https://framerusercontent.com/x").data

/-- Oracle failing exactly on `c3u1`. -/
def c3oracle : Str → Option (List Nat) := fun u => if u = c3u1 then none else some [7]

/-- The shared target path of `c3u1` and `c3u2`. -/
def c3path : List Str := [("assets").data, ("others").data, ("x").data]

/-- The C3 input document, containing both URLs. -/
def c3doc0 : Str := ("a https://framerusercontent.com/d/x b https://framerusercontent.com/x c").data

/-- The document after the first run: the failed URL is still in place. -/
def c3mid : Str := ("a https://framerusercontent.com/d/x b assets/others/x c").data

/-- The document after the second run: changed again. -/
def c3fin : Str := ("a assets/others/x b assets/others/x c").data

/-- State at the end of the first C3 run. -/
def c3st1 : RunState := ⟨[(c3u2, c3path)], [(c3path, [7])], [c3u1, c3u2]⟩

/-- State at the end of the second C3 run. -/
def c3st2 : RunState := ⟨[(c3u1, c3path)], [(c3path, [7])], []⟩

/-- All-success oracle for the C3 witness. -/
def c3wall : Str → Option (List Nat) := fun _ => some [4]

/-- C3 witness input document. -/
def c3wdoc : Str := ("k https://framerusercontent.com/y.png k").data

/-- C3 witness document after the first run (match-free). -/
def c3wmid : Str := ("k assets/images/y.png k").data

/-- C3 witness URL. -/
def c3wu : Str := ("https://framerusercontent.com/y.png").data

/-- C3 witness asset path. -/
def c3wp : List Str := [("assets").data, ("images").data, ("y.png").data]

/-- C3 witness state after the first run. -/
def c3wst1 : RunState := ⟨[(c3wu, c3wp)], [(c3wp, [4])], [c3wu]⟩

/-- All-success oracle for C4. -/
def c4oracle : Str → Option (List Nat) := fun _ => some [8]

/-- A document that the rewrite changes (so a write-back is attempted). -/
def c4doc1 : Str := ("h https://framerusercontent.com/p.png h").data

/-- A later document that the aborted run never reaches. -/
def c4doc2 : Str := ("second document").data

/-- All-fail oracle for the C4 witness. -/
def c4wfail : Str → Option (List Nat) := fun _ => none

/-- A document whose only URL fails to fetch. -/
def c4wfaildoc : Str := ("g https://framerusercontent.com/bad.png g").data

/-- C4 witness documents: an undecodable one, one whose fetch fails, and a
plain one; all with working write-back. -/
def c4wdocs : List DocFile :=
  [⟨[], none, true⟩, ⟨[], some c4wfaildoc, true⟩, ⟨[], some c4doc2, true⟩]

/-- All-fail oracle for C5. -/
def c5fail : Str → Option (List Nat) := fun _ => none

/-- A URL whose fetch fails. -/
def c5u : Str := ("https://framerusercontent.com/q.png").data

/-- All-success oracle for the C5 witness. -/
def c5wall : Str → Option (List Nat) := fun _ => some [9]

/-- C5 witness URL. -/
def c5wu : Str := ("https://framerusercontent.com/w.png").data

/-- C5 witness asset path. -/
def c5wp : List Str := [("assets").data, ("images").data, ("w.png").data]

/-- C5 witness state after the first successful call. -/
def c5wst1 : RunState := ⟨[(c5wu, c5wp)], [(c5wp, [9])], [c5wu]⟩

/-- C6 witness URL (short safe basename, kept as-is). -/
def c6url : Str := ("https://framerusercontent.com/icons/logo.svg").data

/-- C6 witness asset path. -/
def c6p : List Str := [("assets").data, ("images").data, ("logo.svg").data]

/-- All-success oracle for C7. -/
def c7all : Str → Option (List Nat) := fun _ => some [3]

/-- A matched URL that is a prefix of the excluded one. -/
def c7uA : Str := ("https://framerusercontent.com/x").data

/-- A matched URL containing the exclusion marker. -/
def c7uB : Str := ("https://framerusercontent.com/xsearchIndex").data

/-- A document containing both URLs; `c7uA` occurs inside `c7uB`. -/
def c7doc : Str :=
  ("u https://framerusercontent.com/x v https://framerusercontent.com/xsearchIndex w").data

/-- C7 witness: an excluded URL. -/
def c7wraw : Str := ("https://framerusercontent.com/searchIndex.json").data

/-- C7 witness document: its only matched URL is excluded. -/
def c7wdoc : Str := ("s https://framerusercontent.com/searchIndex.json t").data

/-- C8 witness: a document with no matching URL. -/
def c8doc : Str := ("no asset references here").data

/-- All-success oracle for C9. -/
def c9oracle : Str → Option (List Nat) := fun _ => some [5]

/-- C9 witness URL. -/
def c9u : Str := ("https://framerusercontent.com/pic.jpg").data

/-- C9 witness asset path. -/
def c9p : List Str := [("assets").data, ("images").data, ("pic.jpg").data]

/-- State after materializing `c9u` from the empty state. -/
def c9st1 : RunState := ⟨[(c9u, c9p)], [(c9p, [5])], [c9u]⟩

/-- A further document processed after the C9 materialization. -/
def c9doc2 : Str := ("z https://framerusercontent.com/f.woff z").data

/-- URL of the further document. -/
def c9u2 : Str := ("https://framerusercontent.com/f.woff").data

/-- Asset path of `c9u2`. -/
def c9p2 : List Str := [("assets").data, ("fonts").data, ("f.woff").data]

/-- The further document after its rewrite. -/
def c9doc2out : Str := ("z assets/fonts/f.woff z").data

/-- Final state after the rest of the C9 witness run. -/
def c9stF : RunState := ⟨[(c9u2, c9p2), (c9u, c9p)], [(c9p2, [5]), (c9p, [5])], [c9u, c9u2]⟩

/-- C10 witness URL. -/
def c10u : Str := ("https://framerusercontent.com/images/x.png").data

theorem md5hex_nil : md5hex [] = ("d41d8cd98f00b204e9800998ecf8427e").data := by decide

theorem md5hex_abc : md5hex (utf8Encode (("abc").data)) =
    ("900150983cd24fb0d6963f7d28e17f72").data := by decide

theorem get_target_dir_cases (ext : Str) :
    get_target_dir ext = IMAGES_DIR ∨ get_target_dir ext = FONTS_DIR ∨
      get_target_dir ext = OTHERS_DIR := by
  unfold get_target_dir
  split
  · exact Or.inl rfl
  split
  · exact Or.inr (Or.inl rfl)
  · exact Or.inr (Or.inr rfl)

theorem targetPath_split (u : Str) :
    ∃ fn, targetPath u = get_target_dir (get_extension u) ++ [fn] := ⟨_, rfl⟩

theorem targetPath_inAssetDirs (u : Str) : inAssetDirs (targetPath u) := by
  obtain ⟨fn, hfn⟩ := targetPath_split u
  unfold inAssetDirs
  rw [hfn]
  rcases get_target_dir_cases (get_extension u) with h | h | h <;> rw [h] <;>
    simp [IMAGES_DIR, FONTS_DIR, OTHERS_DIR, ASSETS_DIR]

theorem download_cache_mono (oracle : Str → Option (List Nat)) (u0 u : Str)
    (st : RunState) (p : List Str) (h : lookupA st.cache u = some p) :
    lookupA (download_file oracle u0 st).2.cache u = some p := by
  unfold download_file
  cases hc : lookupA st.cache u0 with
  | some q => exact h
  | none =>
    have hu : u0 ≠ u := by
      intro he; rw [he, h] at hc; cases hc
    by_cases hd : diskHas st.disk (targetPath u0) = true
    · simp only [hd, if_true]
      simpa [lookupA, hu] using h
    · rw [if_neg hd]
      cases horacle : oracle u0 with
      | some b => simpa [lookupA, hu] using h
      | none => exact h

theorem stepUrl_cache_mono (oracle : Str → Option (List Nat)) (docDir : List Str)
    (acc : Str × RunState) (raw u : Str) (p : List Str)
    (h : lookupA acc.2.cache u = some p) :
    lookupA (stepUrl oracle docDir acc raw).2.cache u = some p := by
  simp only [stepUrl]
  split
  · exact h
  · have hmono := download_cache_mono oracle (pyUnescape raw) u acc.2 p h
    cases hd : download_file oracle (pyUnescape raw) acc.2 with
    | mk r st' =>
      rw [hd] at hmono
      cases r <;> simpa using hmono

theorem foldl_cache_mono (oracle : Str → Option (List Nat)) (docDir : List Str)
    (urls : List Str) (acc : Str × RunState) (u : Str) (p : List Str)
    (h : lookupA acc.2.cache u = some p) :
    lookupA ((urls.foldl (stepUrl oracle docDir) acc)).2.cache u = some p := by
  induction urls generalizing acc with
  | nil => exact h
  | cons x xs ih => exact ih _ (stepUrl_cache_mono oracle docDir acc x u p h)

theorem rewrite_cache_mono (oracle : Str → Option (List Nat)) (docDir : List Str)
    (content : Str) (st : RunState) (u : Str) (p : List Str)
    (h : lookupA st.cache u = some p) :
    lookupA (rewriteContent oracle docDir content st).2.cache u = some p :=
  foldl_cache_mono oracle docDir _ (content, st) u p h

theorem process_cache_mono (oracle : Str → Option (List Nat)) (d : DocFile)
    (st : RunState) (u : Str) (p : List Str) (c : Option Str) (st' : RunState)
    (hres : process_file oracle d st = Except.ok (c, st'))
    (h : lookupA st.cache u = some p) :
    lookupA st'.cache u = some p := by
  cases hcont : d.content with
  | none =>
    simp only [process_file, hcont, Except.ok.injEq, Prod.mk.injEq] at hres
    rw [← hres.2]
    exact h
  | some content =>
    simp only [process_file, hcont] at hres
    split at hres
    · simp only [Except.ok.injEq, Prod.mk.injEq] at hres
      rw [← hres.2]
      exact rewrite_cache_mono oracle d.dir content st u p h
    · split at hres
      · simp only [Except.ok.injEq, Prod.mk.injEq] at hres
        rw [← hres.2]
        exact rewrite_cache_mono oracle d.dir content st u p h
      · cases hres

theorem runMain_cache_mono (oracle : Str → Option (List Nat)) (ds : List DocFile)
    (st : RunState) (cs : List (Option Str)) (stF : RunState) (u : Str) (p : List Str)
    (hres : runMain oracle ds st = Except.ok (cs, stF))
    (h : lookupA st.cache u = some p) :
    lookupA stF.cache u = some p := by
  induction ds generalizing st cs with
  | nil =>
    simp only [runMain, Except.ok.injEq, Prod.mk.injEq] at hres
    rw [← hres.2]
    exact h
  | cons d rest ih =>
    simp only [runMain] at hres
    cases hp : process_file oracle d st with
    | error e => rw [hp] at hres; cases hres
    | ok r =>
      rw [hp] at hres
      simp only [] at hres
      cases hr : runMain oracle rest r.2 with
      | error e => rw [hr] at hres; cases hres
      | ok r2 =>
        rw [hr] at hres
        simp only [Except.ok.injEq, Prod.mk.injEq] at hres
        obtain ⟨h1, h2⟩ := hres
        subst h2
        exact ih r.2 r2.1 (by rw [hr]) (process_cache_mono oracle d st u p r.1 r.2 (by rw [hp]) h)

theorem runMain_clean (oracle : Str → Option (List Nat)) (ds : List DocFile)
    (st : RunState)
    (h : ∀ d ∈ ds, ∀ s, d.content = some s → findall s = []) :
    runMain oracle ds st = Except.ok (ds.map (fun d => d.content), st) := by
  induction ds generalizing st with
  | nil => rfl
  | cons d rest ih =>
    have hd : process_file oracle d st = Except.ok (d.content, st) := by
      cases hcont : d.content with
      | none => simp [process_file, hcont]
      | some s =>
        have hf : findall s = [] := h d (by simp) s hcont
        have hrw : rewriteContent oracle d.dir s st = (s, st) := by
          unfold rewriteContent
          rw [hf]
          rfl
        simp [process_file, hcont, hrw]
    have ih' := ih st (fun d' hd' => h d' (List.mem_cons_of_mem _ hd'))
    simp [runMain, hd, ih']

theorem runMain_length (oracle : Str → Option (List Nat)) (ds : List DocFile)
    (st : RunState) (cs : List (Option Str)) (stF : RunState)
    (hres : runMain oracle ds st = Except.ok (cs, stF)) : cs.length = ds.length := by
  induction ds generalizing st cs with
  | nil =>
    simp only [runMain, Except.ok.injEq, Prod.mk.injEq] at hres
    rw [← hres.1]
    rfl
  | cons d rest ih =>
    simp only [runMain] at hres
    cases hp : process_file oracle d st with
    | error e => rw [hp] at hres; cases hres
    | ok r =>
      rw [hp] at hres
      simp only [] at hres
      cases hr : runMain oracle rest r.2 with
      | error e => rw [hr] at hres; cases hres
      | ok r2 =>
        rw [hr] at hres
        simp only [Except.ok.injEq, Prod.mk.injEq] at hres
        obtain ⟨h1, h2⟩ := hres
        subst h2
        rw [← h1]
        simpa using ih r.2 r2.1 (by rw [hr])

theorem nextDocs_contents : ∀ (ds : List DocFile) (cs : List (Option Str)),
    cs.length = ds.length → (nextDocs ds cs).map (fun d => d.content) = cs := by
  intro ds
  induction ds with
  | nil =>
    intro cs h
    cases cs with
    | nil => rfl
    | cons c cs' => simp at h
  | cons d rest ih =>
    intro cs h
    cases cs with
    | nil => simp at h
    | cons c cs' =>
      simp only [nextDocs, List.map]
      rw [ih cs' (by simpa using h)]

theorem leBytes_length (n k : Nat) : (leBytes n k).length = k := by
  induction k generalizing n with
  | zero => rfl
  | succ k ih => simp [leBytes, ih]

theorem md5hex_length (m : List Nat) : (md5hex m).length = 32 := by
  have h2 : ∀ l : List Nat,
      (l.foldr (fun b acc => byteHex b ++ acc) ([] : Str)).length = 2 * l.length := by
    intro l
    induction l with
    | nil => rfl
    | cons b bs ih =>
      simp only [List.foldr]
      rw [List.length_append, ih]
      simp only [byteHex, List.length_cons, List.length_nil, List.length_singleton]
      omega
  have h16 : (md5Bytes m).length = 16 := by
    simp [md5Bytes, leBytes_length]
  unfold md5hex
  rw [h2, h16]

theorem hexDigitChar_mem (n : Nat) : hexDigitChar n ∈ hexChars := by
  unfold hexDigitChar
  rcases lt_or_le n 16 with h | h
  · interval_cases n <;> decide
  · rw [List.getD_eq_default]
    · decide
    · simpa [hexChars] using h

theorem foldr_byteHex_mem (l : List Nat) (c : Char)
    (h : c ∈ l.foldr (fun b acc => byteHex b ++ acc) ([] : Str)) : c ∈ hexChars := by
  induction l with
  | nil => cases h
  | cons b bs ih =>
    simp only [List.foldr, byteHex, List.cons_append, List.nil_append,
      List.mem_cons] at h
    rcases h with h | h | h
    · rw [h]; exact hexDigitChar_mem _
    · rw [h]; exact hexDigitChar_mem _
    · exact ih h

/-- C1 counterexample: the claim says the rewriter replaces every literal
occurrence of the original (pre-unescape) matched string.  On a document
whose matched string carries an HTML entity, materialization of the
unescaped URL succeeds, yet the document text is left unchanged: the source
replaces occurrences of the unescaped string (line 141 uses the reassigned
`url`), and the pre-unescape matched string is never replaced even though
replacing it would have changed the text. -/
theorem c1_counterexample :
    findall c1doc = [c1raw] ∧
    (download_file c1all (pyUnescape c1raw) (initState [])).1 = some c1path ∧
    (rewriteContent c1all [] c1doc (initState [])).1 = c1doc ∧
    hasSubstr c1doc c1raw = true ∧
    pyReplace c1doc c1raw (joinSlash (relParts [] c1path)) ≠ c1doc := by decide

/-- C1 amended: for a document with a single matched string whose
materialization succeeds, the rewriter replaces every literal occurrence of
the UNESCAPED matched string with the asset's document-relative
forward-slash path (occurrences of a pre-unescape form that differs from
its unescaped form are left in place). -/
theorem c1_amended (oracle : Str → Option (List Nat)) (docDir : List Str)
    (content u : Str) (st st' : RunState) (p : List Str)
    (hfind : findall content = [u])
    (hmark : hasSubstr (pyUnescape u) searchMarker = false)
    (hdl : download_file oracle (pyUnescape u) st = (some p, st')) :
    rewriteContent oracle docDir content st =
      (pyReplace content (pyUnescape u) (joinSlash (relParts docDir p)), st') := by
  unfold rewriteContent
  rw [hfind]
  have h1 : sortLenDesc (dedupFirst [u]) = [u] := by
    simp [dedupFirst, dedupAux, sortLenDesc, insertLenDesc]
  rw [h1]
  simp only [List.foldl, stepUrl, hmark]
  rw [hdl]
  simp

/-- Witness instantiating the amended C1 on a concrete document. -/
theorem c1_amended_witness :
    rewriteContent c1all [] c1wdoc (initState []) =
      (pyReplace c1wdoc (pyUnescape c1wu) (joinSlash (relParts [] c1wp)), c1wst) :=
  c1_amended c1all [] c1wdoc c1wu (initState []) c1wst c1wp (by decide) (by decide)
    (by decide)

/-- C2 counterexample: the claim says a failure is cached as a negative
result so a subsequent materialize call returns it without retrying.  On a
failing URL the first call caches nothing, and the second call performs a
second fetch attempt (two log entries). -/
theorem c2_counterexample :
    (download_file c2fail c2u (initState [])).1 = none ∧
    (download_file c2fail c2u (initState [])).2.cache = [] ∧
    (download_file c2fail c2u ((download_file c2fail c2u (initState [])).2)).2.log =
      [c2u, c2u] := by decide

/-- C2 amended: a failed materialization returns `none` without raising,
leaves the cache and disk unchanged (the failure is NOT cached, so a later
call retries), records the fetch attempt, and the rewrite step leaves the
original URL string in place in the document. -/
theorem c2_amended (oracle : Str → Option (List Nat)) (docDir : List Str)
    (content raw : Str) (st : RunState)
    (hmark : hasSubstr (pyUnescape raw) searchMarker = false)
    (hmiss : lookupA st.cache (pyUnescape raw) = none)
    (hdisk : diskHas st.disk (targetPath (pyUnescape raw)) = false)
    (hfail : oracle (pyUnescape raw) = none) :
    download_file oracle (pyUnescape raw) st =
      (none, ⟨st.cache, st.disk, st.log ++ [pyUnescape raw]⟩) ∧
    stepUrl oracle docDir (content, st) raw =
      (content, ⟨st.cache, st.disk, st.log ++ [pyUnescape raw]⟩) := by
  have hdl : download_file oracle (pyUnescape raw) st =
      (none, ⟨st.cache, st.disk, st.log ++ [pyUnescape raw]⟩) := by
    unfold download_file
    rw [hmiss]
    rw [if_neg (by rw [hdisk]; exact Bool.false_ne_true)]
    rw [hfail]
  refine ⟨hdl, ?_⟩
  simp only [stepUrl, hmark]
  rw [hdl]
  simp

/-- Witness instantiating the amended C2 on a concrete failing URL. -/
theorem c2_amended_witness :
    download_file c2fail (pyUnescape c2u) (initState []) =
      (none, ⟨[], [], [pyUnescape c2u]⟩) ∧
    stepUrl c2fail [] (c2wdoc, initState []) c2u =
      (c2wdoc, ⟨[], [], [pyUnescape c2u]⟩) :=
  c2_amended c2fail [] c2wdoc c2u (initState []) (by decide) (by decide) (by decide)
    (by decide)

/-- C5 counterexample: the claim says materialize triggers at most one fetch
attempt per URL over the whole run; on a URL whose fetch fails, two calls
perform two fetch attempts. -/
theorem c5_counterexample :
    ((download_file c5fail c5u ((download_file c5fail c5u (initState [])).2)).2.log.count
      c5u) = 2 := by decide

/-- C5 amended: two materialize calls for the same URL under the same fetch
behavior return identical results, and when the first call succeeds the
second changes nothing (in particular performs no further fetch); only a
failed first call is retried. -/
theorem c5_amended (oracle : Str → Option (List Nat)) (u : Str)
    (st st1 st2 : RunState) (r1 r2 : Option (List Str))
    (h1 : download_file oracle u st = (r1, st1))
    (h2 : download_file oracle u st1 = (r2, st2)) :
    r2 = r1 ∧ ∀ p, r1 = some p → st2 = st1 := by
  unfold download_file at h1 h2
  cases hc : lookupA st.cache u with
  | some q =>
    rw [hc] at h1
    injection h1 with h1a h1b
    subst h1a
    subst h1b
    rw [hc] at h2
    injection h2 with h2a h2b
    subst h2a
    subst h2b
    exact ⟨rfl, fun p _ => rfl⟩
  | none =>
    rw [hc] at h1
    by_cases hd : diskHas st.disk (targetPath u) = true
    · rw [if_pos hd] at h1
      injection h1 with h1a h1b
      subst h1a
      subst h1b
      rw [show lookupA ({ st with cache := (u, targetPath u) :: st.cache } :
          RunState).cache u = some (targetPath u) from by simp [lookupA]] at h2
      injection h2 with h2a h2b
      subst h2a
      subst h2b
      exact ⟨rfl, fun p _ => rfl⟩
    · have hd' : diskHas st.disk (targetPath u) = false := by
        revert hd
        cases diskHas st.disk (targetPath u) <;> simp
      rw [if_neg hd] at h1
      cases ho : oracle u with
      | some b =>
        rw [ho] at h1
        injection h1 with h1a h1b
        subst h1a
        subst h1b
        have hl : lookupA (RunState.mk ((u, targetPath u) :: st.cache)
            ((targetPath u, b) :: st.disk) (st.log ++ [u])).cache u =
            some (targetPath u) := by simp [lookupA]
        rw [hl] at h2
        injection h2 with h2a h2b
        subst h2a
        subst h2b
        exact ⟨rfl, fun p _ => rfl⟩
      | none =>
        rw [ho] at h1
        injection h1 with h1a h1b
        subst h1a
        subst h1b
        rw [show lookupA ({ st with log := st.log ++ [u] } : RunState).cache u =
          none from hc] at h2
        rw [show diskHas ({ st with log := st.log ++ [u] } : RunState).disk
          (targetPath u) = false from hd'] at h2
        rw [if_neg Bool.false_ne_true] at h2
        rw [ho] at h2
        injection h2 with h2a h2b
        subst h2a
        subst h2b
        refine ⟨rfl, fun p hp => ?_⟩
        simp at hp

/-- Witness instantiating the amended C5: after a successful first call, the
second call returns the same path and leaves the state untouched. -/
theorem c5_amended_witness :
    (download_file c5wall c5wu c5wst1).1 = some c5wp ∧
    (download_file c5wall c5wu c5wst1).2 = c5wst1 := by
  have h := c5_amended c5wall c5wu (initState []) c5wst1
      (download_file c5wall c5wu c5wst1).2 (some c5wp)
      (download_file c5wall c5wu c5wst1).1 (by decide) rfl
  exact ⟨h.1, h.2 c5wp rfl⟩

/-- C7 counterexample: the claim says all occurrences of a marker-containing
matched URL are left unmodified.  Here the excluded URL is never fetched
(the log shows only the other URL), but the replacement of a shorter
matched URL rewrites text inside the excluded URL's occurrence, which no
longer appears in the output. -/
theorem c7_counterexample :
    hasSubstr c7uB searchMarker = true ∧
    findall c7doc = [c7uA, c7uB] ∧
    hasSubstr c7doc c7uB = true ∧
    (rewriteContent c7all [] c7doc (initState [])).2.log = [c7uA] ∧
    hasSubstr (rewriteContent c7all [] c7doc (initState [])).1 c7uB = false := by decide

theorem dedupAux_subset : ∀ (seen l : List Str) (x : Str),
    x ∈ dedupAux seen l → x ∈ l := by
  intro seen l
  induction l generalizing seen with
  | nil =>
    intro x hx
    simp [dedupAux] at hx
  | cons a rest ih =>
    intro x hx
    simp only [dedupAux] at hx
    by_cases ha : a ∈ seen
    · rw [if_pos ha] at hx
      exact List.mem_cons_of_mem _ (ih seen x hx)
    · rw [if_neg ha] at hx
      rcases List.mem_cons.mp hx with h | h
      · rw [h]
        exact List.mem_cons_self _ _
      · exact List.mem_cons_of_mem _ (ih _ x h)

theorem insertLenDesc_subset : ∀ (l : List Str) (x y : Str),
    x ∈ insertLenDesc y l → x = y ∨ x ∈ l := by
  intro l
  induction l with
  | nil =>
    intro x y hx
    simp only [insertLenDesc] at hx
    exact Or.inl (List.mem_singleton.mp hx)
  | cons a rest ih =>
    intro x y hx
    simp only [insertLenDesc] at hx
    by_cases hle : a.length ≤ y.length
    · rw [if_pos hle] at hx
      rcases List.mem_cons.mp hx with h | h
      · exact Or.inl h
      · exact Or.inr h
    · rw [if_neg hle] at hx
      rcases List.mem_cons.mp hx with h | h
      · exact Or.inr (by rw [h]; exact List.mem_cons_self _ _)
      · rcases ih x y h with h' | h'
        · exact Or.inl h'
        · exact Or.inr (List.mem_cons_of_mem _ h')

theorem sortLenDesc_subset : ∀ (l : List Str) (x : Str),
    x ∈ sortLenDesc l → x ∈ l := by
  intro l
  induction l with
  | nil =>
    intro x hx
    simp [sortLenDesc] at hx
  | cons a rest ih =>
    intro x hx
    simp only [sortLenDesc] at hx
    rcases insertLenDesc_subset _ x a hx with h | h
    · rw [h]
      exact List.mem_cons_self _ _
    · exact List.mem_cons_of_mem _ (ih x h)

/-- C7 amended: a matched URL whose unescaped form contains the exclusion
marker is never passed to the materializer and never fetched: its rewrite
step changes neither the document text nor the state (in particular the
fetch log); consequently a document all of whose matched URLs are excluded
is left entirely unmodified.  (Replacements performed for other,
non-excluded matched URLs may still alter text inside an excluded URL's
occurrences, as the counterexample shows.) -/
theorem c7_amended (oracle : Str → Option (List Nat)) (docDir : List Str)
    (content : Str) (st : RunState) (raw : Str)
    (hmark : hasSubstr (pyUnescape raw) searchMarker = true)
    (hall : ∀ x ∈ findall content, hasSubstr (pyUnescape x) searchMarker = true) :
    stepUrl oracle docDir (content, st) raw = (content, st) ∧
    rewriteContent oracle docDir content st = (content, st) := by
  have hstep : ∀ (acc : Str × RunState) (x : Str),
      hasSubstr (pyUnescape x) searchMarker = true →
      stepUrl oracle docDir acc x = acc := by
    intro acc x hx
    simp [stepUrl, hx]
  refine ⟨hstep (content, st) raw hmark, ?_⟩
  unfold rewriteContent
  have hfold : ∀ (urls : List Str) (acc : Str × RunState),
      (∀ x ∈ urls, hasSubstr (pyUnescape x) searchMarker = true) →
      urls.foldl (stepUrl oracle docDir) acc = acc := by
    intro urls
    induction urls with
    | nil =>
      intro acc h
      rfl
    | cons a rest ih =>
      intro acc h
      simp only [List.foldl]
      rw [hstep acc a (h a (List.mem_cons_self _ _))]
      exact ih acc (fun x hx => h x (List.mem_cons_of_mem _ hx))
  exact hfold _ (content, st) (fun x hx =>
    hall x (dedupAux_subset [] (findall content) x
      (sortLenDesc_subset (dedupFirst (findall content)) x hx)))

/-- Witness instantiating the amended C7: a document whose only matched URL
is excluded is left entirely unchanged, with nothing fetched. -/
theorem c7_amended_witness :
    stepUrl c7all [] (c7wdoc, initState []) c7wraw = (c7wdoc, initState []) ∧
    rewriteContent c7all [] c7wdoc (initState []) = (c7wdoc, initState []) :=
  c7_amended c7all [] c7wdoc (initState []) c7wraw (by decide) (by decide)

/-- C8: a document whose text contains zero substrings matching the CDN-host
URL pattern is never rewritten: the transformation is the identity on both
text and state, and `process_file` succeeds returning the document unchanged
even when writing would fail (no write is attempted). -/
theorem c8_noop (oracle : Str → Option (List Nat)) (d : DocFile) (content : Str)
    (st : RunState) (hc : d.content = some content)
    (hfind : findall content = []) :
    rewriteContent oracle d.dir content st = (content, st) ∧
    process_file oracle d st = Except.ok (some content, st) := by
  have hrw : rewriteContent oracle d.dir content st = (content, st) := by
    unfold rewriteContent
    rw [hfind]
    rfl
  exact ⟨hrw, by simp [process_file, hc, hrw]⟩

/-- Witness instantiating C8 on a concrete match-free document whose write
capability is absent. -/
theorem c8_noop_witness :
    rewriteContent c2fail [] c8doc (initState []) = (c8doc, initState []) ∧
    process_file c2fail ⟨[], some c8doc, false⟩ (initState []) =
      Except.ok (some c8doc, initState []) :=
  c8_noop c2fail ⟨[], some c8doc, false⟩ c8doc (initState []) rfl (by decide)

theorem nextDocs_content_mem : ∀ (ds : List DocFile) (cs : List (Option Str))
    (d : DocFile), d ∈ nextDocs ds cs → d.content ∈ cs := by
  intro ds
  induction ds with
  | nil =>
    intro cs d hd
    cases cs <;> simp [nextDocs] at hd
  | cons d0 rest ih =>
    intro cs d hd
    cases cs with
    | nil => simp [nextDocs] at hd
    | cons c cs' =>
      simp only [nextDocs, List.mem_cons] at hd
      rcases hd with h | h
      · rw [h]
        exact List.mem_cons_self _ _
      · exact List.mem_cons_of_mem _ (ih cs' d h)

/-- C3 counterexample: running the tool twice with the same fetch behavior
is not a fixed point.  A URL whose fetch fails in run 1 stays in the
document; its target filename collides with another URL's asset, so run 2
finds the file on disk, materializes from it, and rewrites the document
again. -/
theorem c3_counterexample :
    runMain c3oracle [⟨[], some c3doc0, true⟩] (initState []) =
      Except.ok ([some c3mid], c3st1) ∧
    runMain c3oracle (nextDocs [⟨[], some c3doc0, true⟩] [some c3mid])
      (initState c3st1.disk) = Except.ok ([some c3fin], c3st2) ∧
    c3fin ≠ c3mid := by decide

/-- C3 amended: the second run is a fixed point (no document and no asset
file changes) provided the first run eliminated every matching URL from
every document it produced; in general a URL left in place by a failed
fetch may be rewritten by the second run when its target file was created
meanwhile by a colliding URL. -/
theorem c3_amended (oracle : Str → Option (List Nat)) (docs : List DocFile)
    (disk0 : List (List Str × List Nat)) (cs1 : List (Option Str)) (st1 : RunState)
    (hrun : runMain oracle docs (initState disk0) = Except.ok (cs1, st1))
    (hclean : ∀ c ∈ cs1, ∀ s, c = some s → findall s = []) :
    runMain oracle (nextDocs docs cs1) (initState st1.disk) =
      Except.ok (cs1, initState st1.disk) := by
  have hlen : cs1.length = docs.length := runMain_length oracle docs _ cs1 st1 hrun
  have hc : ∀ d ∈ nextDocs docs cs1, ∀ s, d.content = some s → findall s = [] := by
    intro d hd s hs
    exact hclean d.content (nextDocs_content_mem docs cs1 d hd) s hs
  rw [runMain_clean oracle (nextDocs docs cs1) (initState st1.disk) hc,
    nextDocs_contents docs cs1 hlen]

/-- Witness instantiating the amended C3: after a fully successful first
run, the second run changes nothing. -/
theorem c3_amended_witness :
    runMain c3wall (nextDocs [⟨[], some c3wdoc, true⟩] [some c3wmid])
      (initState c3wst1.disk) = Except.ok ([some c3wmid], initState c3wst1.disk) :=
  c3_amended c3wall [⟨[], some c3wdoc, true⟩] [] [some c3wmid] c3wst1 (by decide)
    (by
      intro c hc s hs
      rw [List.mem_singleton.mp hc] at hs
      rw [← Option.some.inj hs]
      decide)

/-- C4 counterexample: the claim counts file write failures among the
failures that never abort the run, but a failing document write-back is an
uncaught exception: the run aborts and the remaining document is never
processed. -/
theorem c4_counterexample :
    runMain c4oracle [⟨[], some c4doc1, false⟩, ⟨[], some c4doc2, true⟩]
      (initState []) = Except.error () := by decide

/-- C4 amended: decode failures, fetch failures, and asset write failures
never abort the run: whenever every document write-back succeeds, the run
completes normally with one result per input document. -/
theorem c4_amended (oracle : Str → Option (List Nat)) (docs : List DocFile)
    (st : RunState) (hw : ∀ d ∈ docs, d.writeOk = true) :
    ∃ cs stF, runMain oracle docs st = Except.ok (cs, stF) ∧
      cs.length = docs.length := by
  induction docs generalizing st with
  | nil => exact ⟨[], st, rfl, rfl⟩
  | cons d rest ih =>
    have hpf : ∃ r, process_file oracle d st = Except.ok r := by
      cases hcont : d.content with
      | none => exact ⟨(none, st), by simp [process_file, hcont]⟩
      | some content =>
        by_cases hch : (rewriteContent oracle d.dir content st).1 = content
        · exact ⟨(some content, (rewriteContent oracle d.dir content st).2),
            by simp [process_file, hcont, hch]⟩
        · refine ⟨(some (rewriteContent oracle d.dir content st).1,
            (rewriteContent oracle d.dir content st).2), ?_⟩
          simp [process_file, hcont, hch, hw d (List.mem_cons_self _ _)]
    obtain ⟨r, hr⟩ := hpf
    obtain ⟨cs, stF, hrun, hlen⟩ := ih r.2 (fun d' hd' => hw d' (List.mem_cons_of_mem _ hd'))
    exact ⟨r.1 :: cs, stF, by simp [runMain, hr, hrun], by simp [hlen]⟩

/-- Witness instantiating the amended C4 on a run containing an undecodable
document and a document whose only URL fails to fetch. -/
theorem c4_amended_witness :
    (∀ d ∈ c4wdocs, d.writeOk = true) ∧
    ∃ cs stF, runMain c4wfail c4wdocs (initState []) = Except.ok (cs, stF) ∧
      cs.length = c4wdocs.length :=
  ⟨by decide, c4_amended c4wfail c4wdocs (initState []) (by decide)⟩

/-- C6: on a cache miss, a successful materialization stores the asset at
`target_dir(extension)/filename` where the filename follows the claimed
rule, stated here in the spec's own words via `specFilename`: the sanitized
basename, or `{12-hex-identifier}{extension}` when that is empty or longer
than 50 characters. -/
theorem c6_filename_rule (oracle : Str → Option (List Nat)) (u : Str)
    (st : RunState) (p : List Str)
    (hmiss : lookupA st.cache u = none)
    (hres : (download_file oracle u st).1 = some p) :
    p = get_target_dir (get_extension u) ++ [specFilename u] := by
  have htp : targetPath u = get_target_dir (get_extension u) ++ [specFilename u] := by
    simp only [targetPath, specFilename]
    by_cases h1 : sanitizeName (basenameL (urlparse_path u)) = [] <;>
      by_cases h2 : 50 < (sanitizeName (basenameL (urlparse_path u))).length <;>
      simp [h1, h2]
  unfold download_file at hres
  rw [hmiss] at hres
  by_cases hd : diskHas st.disk (targetPath u) = true
  · rw [if_pos hd] at hres
    simp only [Option.some.injEq] at hres
    rw [← hres, htp]
  · rw [if_neg hd] at hres
    cases ho : oracle u with
    | some b =>
      rw [ho] at hres
      simp only [Option.some.injEq] at hres
      rw [← hres, htp]
    | none =>
      rw [ho] at hres
      cases hres

/-- Witness instantiating C6 on a concrete URL with a short safe basename. -/
theorem c6_filename_rule_witness :
    c6p = get_target_dir (get_extension c6url) ++ [specFilename c6url] :=
  c6_filename_rule c7all c6url (initState []) c6p (by decide) (by decide)

/-- C9: when materialize returns a non-failure result, the returned path
lies under one of the three (pairwise distinct) asset directories, a file
exists at that path at return time, and the URL's cache entry is set to that
path and never changes for the rest of the run. -/
theorem c9_invariants (oracle : Str → Option (List Nat)) (u : Str)
    (st : RunState) (p : List Str) (st' : RunState)
    (hinv : CacheInv st)
    (hres : download_file oracle u st = (some p, st')) :
    inAssetDirs p ∧
    (IMAGES_DIR ≠ FONTS_DIR ∧ IMAGES_DIR ≠ OTHERS_DIR ∧ FONTS_DIR ≠ OTHERS_DIR) ∧
    diskHas st'.disk p = true ∧
    lookupA st'.cache u = some p ∧
    (∀ ds cs stF, runMain oracle ds st' = Except.ok (cs, stF) →
      lookupA stF.cache u = some p) := by
  have hdirs : IMAGES_DIR ≠ FONTS_DIR ∧ IMAGES_DIR ≠ OTHERS_DIR ∧
      FONTS_DIR ≠ OTHERS_DIR := by
    refine ⟨by decide, by decide, by decide⟩
  unfold download_file at hres
  cases hc : lookupA st.cache u with
  | some q =>
    rw [hc] at hres
    injection hres with h1 h2
    injection h1 with h1
    subst h1
    subst h2
    obtain ⟨hdk, hin⟩ := hinv u _ hc
    exact ⟨hin, hdirs, hdk, hc, fun ds cs stF hr =>
      runMain_cache_mono oracle ds _ cs stF u _ hr hc⟩
  | none =>
    rw [hc] at hres
    by_cases hd : diskHas st.disk (targetPath u) = true
    · rw [if_pos hd] at hres
      injection hres with h1 h2
      injection h1 with h1
      subst h1
      subst h2
      have hl : lookupA ({ st with cache := (u, targetPath u) :: st.cache } :
          RunState).cache u = some (targetPath u) := by simp [lookupA]
      exact ⟨targetPath_inAssetDirs u, hdirs, hd, hl, fun ds cs stF hr =>
        runMain_cache_mono oracle ds _ cs stF u _ hr hl⟩
    · rw [if_neg hd] at hres
      cases ho : oracle u with
      | some b =>
        rw [ho] at hres
        injection hres with h1 h2
        injection h1 with h1
        subst h1
        subst h2
        have hl : lookupA (RunState.mk ((u, targetPath u) :: st.cache)
            ((targetPath u, b) :: st.disk) (st.log ++ [u])).cache u =
            some (targetPath u) := by simp [lookupA]
        have hdk : diskHas (RunState.mk ((u, targetPath u) :: st.cache)
            ((targetPath u, b) :: st.disk) (st.log ++ [u])).disk (targetPath u) =
            true := by simp [diskHas, lookupA]
        exact ⟨targetPath_inAssetDirs u, hdirs, hdk, hl, fun ds cs stF hr =>
          runMain_cache_mono oracle ds _ cs stF u _ hr hl⟩
      | none =>
        rw [ho] at hres
        injection hres with h1 h2
        cases h1

/-- Witness instantiating C9 from the empty state, with the rest of the run
processing one further document. -/
theorem c9_invariants_witness :
    inAssetDirs c9p ∧
    (IMAGES_DIR ≠ FONTS_DIR ∧ IMAGES_DIR ≠ OTHERS_DIR ∧ FONTS_DIR ≠ OTHERS_DIR) ∧
    diskHas c9st1.disk c9p = true ∧
    lookupA c9st1.cache c9u = some c9p ∧
    lookupA c9stF.cache c9u = some c9p := by
  have h := c9_invariants c9oracle c9u (initState []) c9p c9st1
    (by intro u p hp; simp [lookupA, initState] at hp) (by decide)
  exact ⟨h.1, h.2.1, h.2.2.1, h.2.2.2.1,
    h.2.2.2.2 [⟨[], some c9doc2, true⟩] [some c9doc2out] c9stF (by decide)⟩

/-- C10: the 12-hex fallback identifier is the first 12 characters of the
MD5 hex digest of the URL's UTF-8 encoding (a pure function of the URL
string alone), and it always consists of exactly 12 lowercase hexadecimal
characters. -/
theorem c10_hash_id (u : Str) (c : Char) (hc : c ∈ url_hash u) :
    url_hash u = (md5hex (utf8Encode u)).take 12 ∧
    (url_hash u).length = 12 ∧ c ∈ hexChars := by
  refine ⟨rfl, ?_, ?_⟩
  · simp [url_hash, List.length_take, md5hex_length]
  · unfold url_hash at hc
    exact foldr_byteHex_mem (md5Bytes (utf8Encode u)) c (List.mem_of_mem_take hc)

/-- Witness instantiating C10 on a concrete URL whose hash begins with d. -/
theorem c10_hash_id_witness :
    url_hash c10u = (md5hex (utf8Encode c10u)).take 12 ∧
    (url_hash c10u).length = 12 ∧ 'd' ∈ hexChars :=
  c10_hash_id c10u 'd' (by decide)

/-- The model's hash of a concrete URL agrees with `hashlib.md5`. -/
theorem url_hash_vector : url_hash c10u = ("d072a96fc03a").data := by decide
